import Mathlib

/-!
Shallow embedding of `FSKB_ArticlesDownload_Code.py` (FreshService knowledge-base
extractor). Pure computations (filename sanitization, HTML-to-text conversion,
status labelling, CSV flattening) are translated directly; the HTTP transport,
the PDF renderer and the filesystem are external collaborators and enter as
explicit parameters (an HTTP response is a status code plus parsed payload; file
writes are recorded as path lists; per-attachment transfer success is an oracle
function). Line numbers in doc comments refer to the Python source.
-/

set_option maxRecDepth 100000

/-! ### Filename sanitizer (source lines 152-157) -/

/-- Whitespace characters removed by Python's `str.strip()`, modelled for the
ASCII range (the only characters this development feeds it). -/
def isPySpace (c : Char) : Bool :=
  c = ' ' || c = '\t' || c = '\n' || c = '\r' || c = '\x0b' || c = '\x0c'

/-- Python `str.strip()`: drop whitespace from both ends of the text. -/
def pyStrip (s : List Char) : List Char :=
  ((s.dropWhile isPySpace).reverse.dropWhile isPySpace).reverse

/-- The reserved characters of `sanitize_filename` (source line 153:
the Python string literal holding the nine characters). -/
def invalid_chars : List Char := ['<', '>', ':', '"', '/', '\\', '\n', '?', '*']

/-- One `filename.replace(char, underscore)` pass of the loop body at source
line 156: every occurrence of `c` becomes an underscore. -/
def replaceChar (s : List Char) (c : Char) : List Char :=
  s.map fun x => if x = c then '_' else x

/-- `sanitize_filename` (source lines 152-157): strip surrounding whitespace,
replace each reserved character by an underscore (one `str.replace` pass per
reserved character, in order), then truncate to the first 250 characters. -/
def sanitize_filename (filename : String) : String :=
  let s := pyStrip filename.data
  let s := invalid_chars.foldl replaceChar s
  String.mk (s.take 250)

/-! ### API client (source lines 88-143) -/

/-- `get_categories` (source lines 88-95), as a function of the HTTP response
it receives: status code plus the parsed `categories` payload. On 200 the
parsed list is returned; on 403 an empty list; the Python function has no
branch for any other status and falls off the end, so it returns `None`,
embedded here as `none`. -/
def get_categories (status : Nat) (body : List α) : Option (List α) :=
  if status = 200 then some body
  else if status = 403 then some []
  else none

/-- `get_folders` (source lines 97-105): same shape as `get_categories`; the
`category_id` only parameterizes the request, never the control flow. -/
def get_folders (_category_id : Nat) (status : Nat) (body : List α) : Option (List α) :=
  if status = 200 then some body
  else if status = 403 then some []
  else none

/-- `get_article_details` (source lines 132-143), as a function of the HTTP
response: on 200 the parsed `article` payload (itself optional, since
`.get('article')` defaults to `None`); on any other status, and on a transport
exception (the `except` branch), `None`. -/
def get_article_details (status : Nat) (body : Option α) : Option α :=
  if status = 200 then body else none

/-- The pagination loop of `get_articles` (source lines 107-130). `resp` maps a
page number to the HTTP response for that page (status code and parsed
`articles` batch). The loop accumulates batches and the list of page numbers it
requested; it stops after a short batch (fewer than 100 items), and breaks with
whatever it has accumulated on a 403 or any other non-200 status (the two
non-200 branches differ only in the logged message). The `while True` loop is
given fuel; one unit is spent per request, so any fuel bound of at least the
number of requests made reproduces the loop exactly. -/
def get_articles_go (resp : Nat → Nat × List α) :
    Nat → Nat → List α → List Nat → List Nat × List α
  | 0, _, acc, reqs => (reqs, acc)
  | fuel + 1, page, acc, reqs =>
    let r := resp page
    let reqs2 := reqs ++ [page]
    if r.1 = 200 then
      let acc2 := acc ++ r.2
      if r.2.length < 100 then (reqs2, acc2)
      else get_articles_go resp fuel (page + 1) acc2 reqs2
    else (reqs2, acc)

/-- `get_articles` (source lines 107-130): start at page 1 with an empty
accumulator. Returns the pages requested together with the accumulated
articles. -/
def get_articles (resp : Nat → Nat × List α) (fuel : Nat) : List Nat × List α :=
  get_articles_go resp fuel 1 [] []

/-- Consecutive page numbers `page, page+1, ...` (`n` of them); used only to
state what the pagination claim expects the client to request. -/
def pagesFrom (page : Nat) : Nat → List Nat
  | 0 => []
  | n + 1 => page :: pagesFrom (page + 1) n

/-- Concatenation of the batches of `n` consecutive pages starting at `page`;
used only to state what the pagination claim expects the client to return. -/
def joinPagesFrom (pages : Nat → List α) (page : Nat) : Nat → List α
  | 0 => []
  | n + 1 => pages page ++ joinPagesFrom pages (page + 1) n

/-! ### Rich-text converter: `html_to_text` (source lines 266-300)

The Python function applies a fixed sequence of `re.sub` passes. Each regex
used is simple enough to be given a dedicated matcher: a function from the
text to `none` (no match at this position) or `some rest` (a match here,
consuming at least one character, with `rest` the text after the match).
`substFuel` then reproduces `re.sub`'s scan: try the matcher at each position
from the left; on a match, emit the replacement and continue after the match;
otherwise copy one character. Since every matcher consumes at least one
character, a fuel equal to the length of the text bounds the number of steps,
so `pysub` is exactly `re.sub` for these patterns. -/

/-- Case-insensitive literal match (the `re.IGNORECASE` flag at source line
295): consumes the pattern if the text starts with it up to case. -/
def ciMatch : List Char → List Char → Option (List Char)
  | [], s => some s
  | _ :: _, [] => none
  | p :: ps, c :: cs => if p.toLower = c.toLower then ciMatch ps cs else none

/-- One `re.sub` scan with matcher `m` and replacement `repl` (fuel-bounded;
see the section comment). -/
def substFuel (m : List Char → Option (List Char)) (repl : List Char) :
    Nat → List Char → List Char
  | 0, s => s
  | _ + 1, [] => []
  | fuel + 1, c :: cs =>
    match m (c :: cs) with
    | some rest => repl ++ substFuel m repl fuel rest
    | none => c :: substFuel m repl fuel cs

/-- `re.sub(pattern-as-matcher, repl, s)` with fuel set to the text length. -/
def pysub (m : List Char → Option (List Char)) (repl : List Char) (s : List Char) :
    List Char :=
  substFuel m repl s.length s

/-- Matcher for a case-insensitive literal tag pattern such as `<p>`. -/
def litMatch (pat : List Char) : List Char → Option (List Char) :=
  fun s => ciMatch pat s

/-- Matcher for the first pattern `<br\s*/?>` (source line 271): literal
`<br`, any run of whitespace, an optional slash, then `>`. The greedy
whitespace run followed by the optional slash admits no other parse. -/
def brMatch : List Char → Option (List Char) := fun s =>
  match ciMatch ['<', 'b', 'r'] s with
  | none => none
  | some rest =>
    match rest.dropWhile isPySpace with
    | '/' :: '>' :: t => some t
    | '>' :: t => some t
    | _ => none

/-- Matcher for `<h[1-6]>` (source line 274). -/
def hOpenMatch : List Char → Option (List Char) := fun s =>
  match s with
  | '<' :: h :: d :: '>' :: t =>
    if h.toLower = 'h' ∧ '1' ≤ d ∧ d ≤ '6' then some t else none
  | _ => none

/-- Matcher for `</h[1-6]>` (source line 275). -/
def hCloseMatch : List Char → Option (List Char) := fun s =>
  match s with
  | '<' :: '/' :: h :: d :: '>' :: t =>
    if h.toLower = 'h' ∧ '1' ≤ d ∧ d ≤ '6' then some t else none
  | _ => none

/-- Matcher for the generic tag-stripping pattern `<[^>]+>` (source line 296):
a `<`, at least one character other than `>`, then the next `>`. -/
def tagMatch : List Char → Option (List Char) := fun s =>
  match s with
  | '<' :: rest =>
    let inner := rest.takeWhile fun c => !(c = '>')
    if inner.length = 0 then none
    else
      match rest.drop inner.length with
      | '>' :: t => some t
      | _ => none
  | _ => none

/-- Matcher for the blank-line collapsing pattern `\n\s*\n` (source line 298):
a newline, then (greedily, with backtracking to the last newline of the
whitespace run) whitespace ending in a newline. -/
def blankMatch : List Char → Option (List Char) := fun s =>
  match s with
  | '\n' :: rest =>
    let run := rest.takeWhile isPySpace
    let upto := run.reverse.dropWhile fun c => !(c = '\n')
    if upto.length = 0 then none else some (rest.drop upto.length)
  | _ => none

/-- Matcher for the horizontal-whitespace pattern `[ \t]+` (source line 299):
a maximal run of spaces and tabs. -/
def spaceMatch : List Char → Option (List Char) := fun s =>
  match s with
  | c :: cs =>
    if c = ' ' ∨ c = '\t' then some (cs.dropWhile fun x => x = ' ' || x = '\t')
    else none
  | [] => none

/-- Named-entity table for `html.unescape` (source line 297). The library call
is external; it is modelled for the standard named entities, which is exact on
every text without an ampersand (the only case the claims exercise). -/
def entityTable : List (List Char × Char) :=
  [(['a', 'm', 'p', ';'], '&'), (['l', 't', ';'], '<'), (['g', 't', ';'], '>'),
   (['q', 'u', 'o', 't', ';'], '"'), (['n', 'b', 's', 'p', ';'], ' ')]

/-- Exact (case-sensitive) literal match used for entity names. -/
def exactMatch : List Char → List Char → Option (List Char)
  | [], s => some s
  | _ :: _, [] => none
  | p :: ps, c :: cs => if p = c then exactMatch ps cs else none

/-- Look the text up in the entity table, returning the decoded character and
the text after the entity. -/
def entityLookup (s : List Char) : List (List Char × Char) → Option (Char × List Char)
  | [] => none
  | e :: rest =>
    match exactMatch e.1 s with
    | some t => some (e.2, t)
    | none => entityLookup s rest

/-- Fuel-bounded scan decoding `&name;` entities (fuel = length suffices since
each step consumes at least one character). -/
def unescapeFuel : Nat → List Char → List Char
  | 0, s => s
  | _ + 1, [] => []
  | fuel + 1, c :: cs =>
    if c = '&' then
      match entityLookup cs entityTable with
      | some r => r.1 :: unescapeFuel fuel r.2
      | none => c :: unescapeFuel fuel cs
    else c :: unescapeFuel fuel cs

/-- Modelled `html.unescape` (source line 297). -/
def pyUnescape (s : List Char) : List Char := unescapeFuel s.length s

/-- `html_to_text` (source lines 266-300): empty input short-circuits to the
empty string; otherwise the ordered replacement passes run (source lines
270-295), then remaining tags are stripped (line 296), entities decoded (line
297), blank-line runs collapsed (line 298), horizontal whitespace collapsed
(line 299), and the result stripped (line 300). The `<li>` replacement is the
source file's literal four-character string (a mojibake-encoded bullet). -/
def html_to_text (html_content : String) : String :=
  if html_content = "" then ""
  else
    let t := html_content.data
    let t := pysub brMatch ['\n'] t
    let t := pysub (litMatch ['<', 'p', '>']) ['\n'] t
    let t := pysub (litMatch ['<', '/', 'p', '>']) ['\n', '\n'] t
    let t := pysub hOpenMatch ("\n\n** ".data) t
    let t := pysub hCloseMatch (" **\n\n".data) t
    let t := pysub (litMatch ['<', 'l', 'i', '>']) ['â', '€', '¢', ' '] t
    let t := pysub (litMatch ['<', '/', 'l', 'i', '>']) ['\n'] t
    let t := pysub (litMatch ['<', 'u', 'l', '>']) ['\n'] t
    let t := pysub (litMatch ['<', '/', 'u', 'l', '>']) ['\n'] t
    let t := pysub (litMatch ['<', 'o', 'l', '>']) ['\n'] t
    let t := pysub (litMatch ['<', '/', 'o', 'l', '>']) ['\n'] t
    let t := pysub (litMatch ("<strong>".data)) ("**".data) t
    let t := pysub (litMatch ("</strong>".data)) ("**".data) t
    let t := pysub (litMatch ("<em>".data)) ("*".data) t
    let t := pysub (litMatch ("</em>".data)) ("*".data) t
    let t := pysub (litMatch ("<code>".data)) ("`".data) t
    let t := pysub (litMatch ("</code>".data)) ("`".data) t
    let t := pysub (litMatch ("<pre>".data)) ("\n```\n".data) t
    let t := pysub (litMatch ("</pre>".data)) ("\n```\n".data) t
    let t := pysub (litMatch ("<blockquote>".data)) ("\n> ".data) t
    let t := pysub (litMatch ("</blockquote>".data)) ['\n'] t
    let t := pysub tagMatch [] t
    let t := pyUnescape t
    let t := pysub blankMatch ['\n', '\n'] t
    let t := pysub spaceMatch [' '] t
    String.mk (pyStrip t)

/-! ### Data model

The Python records are dicts read with `.get`, so every field an API payload
may or may not carry is an `Option`; fields indexed with `article['id']`
(a `KeyError` if absent) are plain. -/

/-- An attachment record of an article detail (fields read at source lines
161, 196-197, 501-502: `id`, `name`, `attachment_url`, each via `.get`). -/
structure Attachment where
  id : Option Nat
  name : Option String
  attachment_url : Option String

/-- A detailed article record (the fields `get_article_details` payloads are
read for, source lines 394-411, 423, 496). -/
structure ArticleDetail where
  id : Option Nat := none
  title : Option String := none
  status : Option Int := none
  folder_id : Option Nat := none
  category_id : Option Nat := none
  created_at : Option String := none
  updated_at : Option String := none
  view_count : Option Nat := none
  thumbs_up : Option Nat := none
  thumbs_down : Option Nat := none
  url : Option String := none
  tags : Option (List String) := none
  description : Option String := none
  attachments : Option (List Attachment) := none

/-- An article stub from a listing endpoint (fields the download loop reads:
`article['id']` at source line 475, `article.get('title')` at 476,
`article.get('status')` in the exporters). -/
structure ArticleStub where
  id : Nat
  title : Option String
  status : Option Int

/-- Python `f-string` rendering of a possibly-absent numeric id (an absent id
prints as `None`), used for attachment filenames. -/
def pyOptNatStr : Option Nat → String
  | some n => toString n
  | none => "None"

/-! ### Status labels (source lines 314-315 and 394-411) -/

/-- The dict literal `status_map = \x7b1: "Published", 2: "Draft"\x7d` at
source line 314, as a partial map. -/
def status_map (s : Int) : Option String :=
  if s = 1 then some "Published" else if s = 2 then some "Draft" else none

/-- The status label computed by `create_html_document` (source line 315):
`status_map.get(article.get('status'), "Unknown")` — an absent status or a
status outside the map falls back to `"Unknown"`. The surrounding function
only interpolates this label (and the other metadata fields) into a fixed
page template, which is presentation and is not modelled further. -/
def create_html_document_status (status : Option Int) : String :=
  (status.bind status_map).getD "Unknown"

/-- The metadata record built by `extract_article_metadata`
(source lines 394-411). `now` stands for `datetime.now().isoformat()`. -/
structure ArticleMetadata where
  id : Option Nat
  title : Option String
  status : String
  folder_id : Option Nat
  category_id : Option Nat
  created_at : Option String
  updated_at : Option String
  view_count : Option Nat
  thumbs_up : Option Nat
  thumbs_down : Option Nat
  url : Option String
  tags : List String
  attachments_count : Nat
  download_timestamp : String

/-- `extract_article_metadata` (source lines 394-411). Note the status field
at line 399: `"Published" if article.get("status") == 1 else "Draft"`. -/
def extract_article_metadata (article : ArticleDetail) (now : String) : ArticleMetadata :=
  { id := article.id
    title := article.title
    status := if article.status = some 1 then "Published" else "Draft"
    folder_id := article.folder_id
    category_id := article.category_id
    created_at := article.created_at
    updated_at := article.updated_at
    view_count := article.view_count
    thumbs_up := article.thumbs_up
    thumbs_down := article.thumbs_down
    url := article.url
    tags := article.tags.getD []
    attachments_count := (article.attachments.getD []).length
    download_timestamp := now }

/-! ### Materializer and orchestrator (source lines 256-264, 413-537)

External effects are parameterized by an environment: `detailOf` is the result
of `get_article_details` for an article id (the HTTP exchange folded in),
`attachOk` is the outcome of one attachment transfer, `pdfOk` is whether
WeasyPrint is available and the render succeeds (source lines 371-392), and
`raisesFolder` marks an article whose `os.makedirs` raises, exercising the
`except` branch of the download loop (source lines 517-519). File writes are
recorded as path strings (with `/` for `os.path.join`). -/

/-- Environment of external collaborators for one run. -/
structure Env where
  detailOf : Nat → Option ArticleDetail
  attachOk : Option Nat → Bool
  pdfOk : Nat → Bool
  raisesFolder : Nat → Bool
  now : String

/-- `create_article_folder` (source lines 256-264): the per-article folder
path `base/{id}_{sanitized title}` (the title defaulting to
`article_{id}`); the directory and its `attachments/` child are created as a
side effect, recorded by the caller. -/
def create_article_folder (article : ArticleStub) (base_directory : String) : String :=
  let article_title := sanitize_filename (article.title.getD ("article_" ++ toString article.id))
  base_directory ++ "/" ++ toString article.id ++ "_" ++ article_title

/-- `download_attachment` (source lines 159-179): `False` on a missing or
empty URL (Python falsiness of `None` and `""`), otherwise the outcome of the
streamed transfer (exceptions are caught and become `False`). -/
def download_attachment (env : Env) (att : Attachment) : Bool :=
  match att.attachment_url with
  | none => false
  | some u => if u = "" then false else env.attachOk att.id

/-- Result of `download_article_content` (source line 415: it returns
`(success, detailed_article or None)`); additionally the paths written, the
`formats_saved` list, and the text content written to the `.txt` file, so the
claims can speak about what lands on disk. -/
structure ContentResult where
  ok : Bool
  detail : Option ArticleDetail
  files : List String
  formats_saved : List String
  text_written : Option String

/-- `download_article_content` (source lines 413-461). An absent detail is a
failure with nothing written (lines 420-422). Otherwise: the PDF is written
only when `save_pdf` is set, the body non-empty, and the render succeeds
(lines 427-431); the HTML only when `save_html` is set and the body non-empty
(lines 434-439); the text whenever `save_text` is set (lines 442-448); the
metadata JSON always (lines 451-455). The in-function `try/except` catches
write errors; the only failure mode modelled is the absent detail. -/
def download_article_content (env : Env) (article : ArticleStub) (folder_path : String)
    (save_pdf save_html save_text : Bool) : ContentResult :=
  let article_id := article.id
  match env.detailOf article_id with
  | none => { ok := false, detail := none, files := [], formats_saved := [], text_written := none }
  | some detailed_article =>
    let html_content := detailed_article.description.getD ""
    let pdfSaved := save_pdf && !(html_content == "") && env.pdfOk article_id
    let pdf_files := if pdfSaved then [folder_path ++ "/" ++ toString article_id ++ "_article.pdf"] else []
    let htmlSaved := save_html && !(html_content == "")
    let html_files := if htmlSaved then [folder_path ++ "/" ++ toString article_id ++ "_article.html"] else []
    let text_files := if save_text then [folder_path ++ "/" ++ toString article_id ++ "_article.txt"] else []
    let metadata_files := [folder_path ++ "/" ++ toString article_id ++ "_metadata.json"]
    { ok := true
      detail := some detailed_article
      files := pdf_files ++ html_files ++ text_files ++ metadata_files
      formats_saved :=
        (if pdfSaved then ["PDF"] else []) ++ (if htmlSaved then ["HTML"] else []) ++
        (if save_text then ["TEXT"] else []) ++ ["JSON"]
      text_written := if save_text then some (html_to_text html_content) else none }

/-- Mutable state of the download loop (source lines 467-470), plus the
folders created and files written so far. -/
structure RunState where
  successful_articles : Nat
  total_attachments : Nat
  successful_attachments : Nat
  folders : List String
  files : List String

/-- The attachment loop of one article (source lines 499-508): returns the
number of attachments processed, the number downloaded successfully, and the
paths written (one per success, at
`{folder}/attachments/{id}_{sanitized name}`, name defaulting to
`unknown`). -/
def download_atts (env : Env) (folder_path : String) : List Attachment → Nat × Nat × List String
  | [] => (0, 0, [])
  | att :: rest =>
    let filename := pyOptNatStr att.id ++ "_" ++ sanitize_filename (att.name.getD "unknown")
    let download_path := folder_path ++ "/attachments/" ++ filename
    let ok := download_attachment env att
    let r := download_atts env folder_path rest
    (r.1 + 1, (if ok then r.2.1 + 1 else r.2.1), (if ok then [download_path] else []) ++ r.2.2)

/-- One iteration of the download loop (source lines 474-519). The folder is
created first (line 481), before the detail fetch inside
`download_article_content` (line 484); a failed content download `continue`s
with the folder already created (lines 490-492); attachments are processed
only after a successful content download when `download_attachments` is set
(lines 495-509). An exception at folder creation hits the `except` branch
(lines 517-519) and skips the article. The post-hoc annotation of the stub
dict (lines 512-515) mutates only the input record and is not modelled. -/
def process_article (env : Env) (base_download_dir : String)
    (download_attachments save_pdf save_html save_text : Bool)
    (st : RunState) (article : ArticleStub) : RunState :=
  if env.raisesFolder article.id then st
  else
    let folder_path := create_article_folder article base_download_dir
    let folders := st.folders ++ [folder_path]
    let r := download_article_content env article folder_path save_pdf save_html save_text
    if r.ok then
      let st1 : RunState :=
        { st with successful_articles := st.successful_articles + 1
                  folders := folders
                  files := st.files ++ r.files }
      if download_attachments then
        match r.detail with
        | some d =>
          let ra := download_atts env folder_path (d.attachments.getD [])
          { st1 with total_attachments := st1.total_attachments + ra.1
                     successful_attachments := st1.successful_attachments + ra.2.1
                     files := st1.files ++ ra.2.2 }
        | none => st1
      else st1
    else { st with folders := folders, files := st.files ++ r.files }

/-- The summary dict returned at source lines 531-537. -/
structure RunSummary where
  total_articles : Nat
  successful_articles : Nat
  total_attachments : Nat
  successful_attachments : Nat
  download_directory : String

/-- `download_articles_and_attachments` (source lines 463-537): fold the
per-article step over the stub list and return the summary, together with the
final loop state (folders created, files written). -/
def download_articles_and_attachments (env : Env) (articles : List ArticleStub)
    (base_download_dir : String) (download_attachments save_pdf save_html save_text : Bool) :
    RunSummary × RunState :=
  let st := articles.foldl
    (process_article env base_download_dir download_attachments save_pdf save_html save_text)
    { successful_articles := 0, total_attachments := 0, successful_attachments := 0,
      folders := [], files := [] }
  ({ total_articles := articles.length
     successful_articles := st.successful_articles
     total_attachments := st.total_attachments
     successful_attachments := st.successful_attachments
     download_directory := base_download_dir }, st)

/-! ### CSV bulk export (source lines 214-228)

A record is an association list with string keys and string values (a Python
dict; keys are unique in a dict, though no proof below needs that). Python's
`sorted` on strings is lexicographic on code points; the builtin `String`
order of the library does not reduce in the kernel, so the order is defined
here directly over the character lists. `sorted(list(set(...)))` is modelled
as sorting the deduplicated concatenation of all key lists: both produce the
unique ascending enumeration of the set of keys. -/

/-- Code-point lexicographic `a <= b` on character lists (Python string
comparison). -/
def pyLeChars : List Char → List Char → Bool
  | [], _ => true
  | _ :: _, [] => false
  | a :: as, b :: bs =>
    if a.toNat = b.toNat then pyLeChars as bs else decide (a.toNat < b.toNat)

/-- Insert a string into an ascending list (one step of `sorted`). -/
def pyInsert (x : String) : List String → List String
  | [] => [x]
  | y :: ys => if pyLeChars x.data y.data then x :: y :: ys else y :: pyInsert x ys

/-- Python `sorted` on a list of strings, as insertion sort. -/
def pySorted (l : List String) : List String := l.foldr pyInsert []

/-- The `fieldnames` computation of `export_to_csv` (source lines 219-222):
the union of all records' key sets, sorted. -/
def csv_fieldnames (articles : List (List (String × String))) : List String :=
  pySorted (articles.foldl (fun acc a => acc ++ a.map Prod.fst) []).dedup

/-- One cell as `csv.DictWriter` writes it: the record's value for the field,
or the default `restval` `""` when the record lacks the field. -/
def csv_lookup (a : List (String × String)) (f : String) : String :=
  ((a.find? fun kv => kv.1 = f).map Prod.snd).getD ""

/-- `export_to_csv` (source lines 214-228), modelled as the content written to
the CSV file: the header row and the data rows (one per record, cells in
header order). `if articles:` guards the whole write, so an empty input
writes nothing (`none`). -/
def export_to_csv (articles : List (List (String × String))) :
    Option (List String × List (List String)) :=
  if articles.isEmpty then none
  else
    let fieldnames := csv_fieldnames articles
    some (fieldnames, articles.map fun a => fieldnames.map (csv_lookup a))

/-! ### Concrete scenarios used by the counterexamples -/

/-- A 251-character input: 249 `a`s, a space, then `b`. Sanitizing truncates
right after the space, which the second sanitization pass then strips. -/
def longTitle : String := String.mk (List.replicate 249 'a' ++ [' ', 'b'])

/-- A detailed article whose `status` is 3, outside the `{1, 2}` enum. -/
def statusThreeArticle : ArticleDetail := { status := some 3 }

/-- Stub A of the end-to-end scenario: its detail fetch succeeds. -/
def stubA : ArticleStub := { id := 1, title := some "A", status := some 1 }

/-- Stub B of the end-to-end scenario: its detail fetch returns absent. -/
def stubB : ArticleStub := { id := 2, title := some "B", status := some 1 }

/-- The one attachment of article A. -/
def attA : Attachment :=
  { id := some 10, name := some "file.bin", attachment_url := some "http://x/f" }

/-- Article A's detail: non-empty body, one attachment. -/
def detailA : ArticleDetail :=
  { description := some "<p>hi</p>", attachments := some [attA] }

/-- Environment of the end-to-end scenario: A's detail fetch succeeds, B's
returns absent, the attachment transfer succeeds, rendering works, nothing
raises. -/
def envAB : Env :=
  { detailOf := fun i => if i = 1 then some detailA else none
    attachOk := fun _ => true
    pdfOk := fun _ => true
    raisesFolder := fun _ => false
    now := "t0" }

/-- The end-to-end scenario run: two stubs, all formats on, attachments on. -/
def runAB : RunSummary × RunState :=
  download_articles_and_attachments envAB [stubA, stubB] "knowledge_base" true true true true

/-! ### Proof-support definitions -/

/-- Pointwise effect of the whole replacement loop of `sanitize_filename`: a
reserved character becomes an underscore, anything else is unchanged. -/
def sanitizeChar (x : Char) : Char :=
  if x ∈ invalid_chars then '_' else x

/-- A paginated source for the pagination witness: page 1 is full (100
items), page 2 is short (1 item). -/
def witnessPages (p : Nat) : List Nat :=
  if p = 1 then List.replicate 100 0 else if p = 2 then [7] else []

/-- The three heterogeneous records of the CSV witness scenario. -/
def csvWitnessRecords : List (List (String × String)) :=
  [[("id", "1"), ("title", "x")], [("id", "2"), ("title", "y"), ("tags", "t")], [("id", "3")]]

/-! ### Helper lemmas: the sanitizer -/

theorem dropWhile_head_false (p : Char → Bool) (l : List Char) (c : Char) (cs : List Char)
    (h : l.dropWhile p = c :: cs) : p c = false := by
  induction l with
  | nil => simp [List.dropWhile] at h
  | cons a as ih =>
    rw [List.dropWhile] at h
    by_cases hp : p a
    · rw [hp] at h; simp at h; exact ih h
    · simp [hp] at h; cases h.1; simpa using hp

theorem dropWhile_eq_self_of_head (p : Char → Bool) (l : List Char)
    (h : ∀ c, l.head? = some c → p c = false) : l.dropWhile p = l := by
  cases l with
  | nil => rfl
  | cons a as =>
    rw [List.dropWhile]
    have := h a (by rfl)
    simp [this]

theorem getLast?_dropWhile_ne_nil (p : Char → Bool) (l : List Char)
    (h : l.dropWhile p ≠ []) : (l.dropWhile p).getLast? = l.getLast? := by
  induction l with
  | nil => simp [List.dropWhile] at h
  | cons a as ih =>
    rw [List.dropWhile]
    by_cases hp : p a
    · rw [List.dropWhile, hp] at h
      simp only [hp]
      rw [ih h]
      have hne : as ≠ [] := by
        intro hnil
        rw [hnil] at h
        simp [List.dropWhile] at h
      cases as with
      | nil => exact absurd rfl hne
      | cons b bs => rw [List.getLast?_cons_cons]
    · simp [hp]

theorem pyStrip_head_false (l : List Char) (c : Char) (cs : List Char)
    (h : pyStrip l = c :: cs) : isPySpace c = false := by
  unfold pyStrip at h
  have hXne : (l.dropWhile isPySpace).reverse.dropWhile isPySpace ≠ [] := by
    intro hnil
    rw [hnil] at h
    simp at h
  have h1 : ((l.dropWhile isPySpace).reverse.dropWhile isPySpace).reverse.head? = some c := by
    rw [h]; rfl
  rw [List.head?_reverse, getLast?_dropWhile_ne_nil _ _ hXne, List.getLast?_reverse] at h1
  cases hzz : l.dropWhile isPySpace with
  | nil => rw [hzz] at h1; simp at h1
  | cons z zs =>
    rw [hzz] at h1
    simp only [List.head?_cons, Option.some.injEq] at h1
    subst h1
    exact dropWhile_head_false isPySpace l z zs hzz

theorem foldl_replaceChar_eq_map_aux (L : List Char) (hL : '_' ∉ L) :
    ∀ s : List Char, L.foldl replaceChar s = s.map fun x => if x ∈ L then '_' else x := by
  induction L with
  | nil => intro s; simp
  | cons c L' ih =>
    intro s
    have hL' : '_' ∉ L' := fun hm => hL (List.mem_cons_of_mem c hm)
    have hne : ('_' : Char) ≠ c := fun he => hL (he ▸ List.mem_cons_self c L')
    rw [List.foldl_cons, ih hL', replaceChar, List.map_map]
    apply List.map_congr_left
    intro x _
    by_cases hxc : x = c
    · subst hxc
      simp [Function.comp, if_neg hL']
    · simp [Function.comp, hxc]

theorem foldl_replaceChar_eq_map (s : List Char) :
    invalid_chars.foldl replaceChar s = s.map sanitizeChar := by
  rw [foldl_replaceChar_eq_map_aux invalid_chars (by decide) s]
  rfl

theorem sanitize_filename_data (s : String) :
    (sanitize_filename s).data = ((pyStrip s.data).map sanitizeChar).take 250 := by
  show (List.foldl replaceChar (pyStrip s.data) invalid_chars).take 250 =
    ((pyStrip s.data).map sanitizeChar).take 250
  rw [foldl_replaceChar_eq_map]

theorem sanitizeChar_not_invalid (x : Char) : sanitizeChar x ∉ invalid_chars := by
  unfold sanitizeChar
  by_cases hx : x ∈ invalid_chars
  · rw [if_pos hx]; decide
  · rw [if_neg hx]; exact hx

theorem sanitizeChar_idem (x : Char) : sanitizeChar (sanitizeChar x) = sanitizeChar x := by
  have h := sanitizeChar_not_invalid x
  unfold sanitizeChar at h ⊢
  rw [if_neg h]

theorem isPySpace_sanitizeChar (x : Char) (h : isPySpace x = false) :
    isPySpace (sanitizeChar x) = false := by
  unfold sanitizeChar
  by_cases hx : x ∈ invalid_chars
  · rw [if_pos hx]; decide
  · rw [if_neg hx]; exact h

theorem string_eq_of_data (a b : String) (h : a.data = b.data) : a = b := by
  cases a; cases b; exact congrArg String.mk h

theorem head?_take_250 (l : List Char) : (l.take 250).head? = l.head? := by
  cases l <;> rfl

/-- C4: for every input string, the sanitized filename contains none of the
reserved characters and has length at most 250. -/
theorem C4_sanitize_safe (s : String) :
    (∀ c ∈ (sanitize_filename s).data, c ∉ invalid_chars) ∧
    (sanitize_filename s).length ≤ 250 := by
  constructor
  · intro c hc
    rw [sanitize_filename_data] at hc
    obtain ⟨y, _, rfl⟩ := List.mem_map.1 (List.take_subset _ _ hc)
    exact sanitizeChar_not_invalid y
  · show (sanitize_filename s).data.length ≤ 250
    rw [sanitize_filename_data]
    exact List.length_take_le _ _

/-- Witness for C4 at the concrete input `"a<b:c"`. -/
theorem C4_sanitize_safe_witness :
    sanitize_filename "a<b:c" = "a_b_c" ∧
    ('_' ∈ (sanitize_filename "a<b:c").data → '_' ∉ invalid_chars) ∧
    (sanitize_filename "a<b:c").length ≤ 250 :=
  ⟨by decide, fun h => (C4_sanitize_safe "a<b:c").1 '_' h, (C4_sanitize_safe "a<b:c").2⟩

/-- C5 counterexample: sanitization is not idempotent. For the 251-character
input of 249 `a`s, a space and a `b`, the first pass truncates right after the
interior space, leaving a trailing space that the second pass strips. -/
theorem C5_sanitize_idem_counterexample :
    sanitize_filename (sanitize_filename longTitle) ≠ sanitize_filename longTitle := by
  decide

/-- C5 amended: sanitization is idempotent on every input whose sanitized
value does not end in a whitespace character — in particular whenever the
250-character truncation does not cut the stripped string (truncation is the
only way a trailing space can appear). -/
theorem C5_sanitize_idem_amended (s : String)
    (h : ∀ c, (sanitize_filename s).data.getLast? = some c → isPySpace c = false) :
    sanitize_filename (sanitize_filename s) = sanitize_filename s := by
  apply string_eq_of_data
  rw [sanitize_filename_data (sanitize_filename s)]
  have hlen : (sanitize_filename s).data.length ≤ 250 := by
    rw [sanitize_filename_data]; exact List.length_take_le _ _
  have hmapid : ∀ x ∈ (sanitize_filename s).data, sanitizeChar x = x := by
    intro x hx
    rw [sanitize_filename_data] at hx
    obtain ⟨y, _, rfl⟩ := List.mem_map.1 (List.take_subset _ _ hx)
    exact sanitizeChar_idem y
  have hhead : ∀ c, (sanitize_filename s).data.head? = some c → isPySpace c = false := by
    intro c hc
    rw [sanitize_filename_data, head?_take_250, List.head?_map] at hc
    cases hw : pyStrip s.data with
    | nil => rw [hw] at hc; simp at hc
    | cons d ds =>
      rw [hw] at hc
      simp at hc
      subst hc
      exact isPySpace_sanitizeChar d (pyStrip_head_false s.data d ds hw)
  have hstrip : pyStrip (sanitize_filename s).data = (sanitize_filename s).data := by
    unfold pyStrip
    rw [dropWhile_eq_self_of_head _ _ hhead]
    rw [dropWhile_eq_self_of_head _ _ (fun c hc => h c (by rwa [List.head?_reverse] at hc))]
    exact List.reverse_reverse _
  rw [hstrip]
  have hmap : List.map sanitizeChar (sanitize_filename s).data = (sanitize_filename s).data := by
    have := List.map_congr_left hmapid
    simpa using this
  rw [hmap]
  exact List.take_of_length_le hlen

/-- Witness for the amended C5 at the concrete input `"a*b"`. -/
theorem C5_sanitize_idem_witness :
    sanitize_filename (sanitize_filename "a*b") = sanitize_filename "a*b" :=
  C5_sanitize_idem_amended "a*b" (by
    intro c hc
    have hlast : (sanitize_filename "a*b").data.getLast? = some 'b' := by decide
    rw [hlast] at hc
    injection hc with hc
    subst hc
    decide)

/-! ### Claim C1: API client degradation -/

/-- C1 counterexample: on a status that is neither 200 nor 403 (here 500),
`get_categories` returns Python `None` — not an empty list, not a list at
all — because the function has no branch for that case. -/
theorem C1_api_degrades_counterexample :
    get_categories 500 ([] : List Nat) = none ∧
    get_categories 500 ([] : List Nat) ≠ some ([] : List Nat) := by
  constructor
  · rfl
  · intro h; cases h

/-- C1 amended: `get_categories` and `get_folders` return the parsed list on
200 and the empty list on 403, but return `None` (an absent, non-list value)
on every other status; `get_article_details` returns `None` on every non-200
status; only `get_articles` returns a list for every status — the empty list
when the first page request fails. -/
theorem C1_api_degrades_amended (status : Nat) (cats folds : List Nat) (cid : Nat)
    (det : Option Nat) (h200 : status ≠ 200) (h403 : status ≠ 403) :
    get_categories status cats = none ∧
    get_folders cid status folds = none ∧
    get_article_details status det = none ∧
    (∀ (resp : Nat → Nat × List Nat) (fuel : Nat) (b : List Nat),
      resp 1 = (status, b) → 1 ≤ fuel → (get_articles resp fuel).2 = []) ∧
    get_categories 403 cats = some [] ∧
    get_folders cid 403 folds = some [] ∧
    get_categories 200 cats = some cats ∧
    get_folders cid 200 folds = some folds := by
  refine ⟨?_, ?_, ?_, ?_, ?_, ?_, ?_, ?_⟩
  · simp [get_categories, h200, h403]
  · simp [get_folders, h200, h403]
  · simp [get_article_details, h200]
  · intro resp fuel b hresp hfuel
    match fuel, hfuel with
    | f + 1, _ =>
      unfold get_articles get_articles_go
      rw [hresp]
      simp [h200]
  · simp [get_categories]
  · simp [get_folders]
  · simp [get_categories]
  · simp [get_folders]

/-- Witness for the amended C1 at status 500 (and 403/200 for the recovery
conjuncts). -/
theorem C1_api_degrades_witness :
    get_categories 500 ([1] : List Nat) = none ∧
    get_folders 7 500 ([2] : List Nat) = none ∧
    get_article_details 500 (some 3) = none ∧
    (get_articles (fun _ => (500, [9])) 1).2 = ([] : List Nat) ∧
    get_categories 403 ([1] : List Nat) = some [] := by
  have h := C1_api_degrades_amended 500 [1] [2] 7 (some 3) (by decide) (by decide)
  exact ⟨h.1, h.2.1, h.2.2.1, h.2.2.2.1 (fun _ => (500, [9])) 1 [9] rfl (by decide), h.2.2.2.2.1⟩

/-! ### Claim C2: status labels -/

/-- C2 counterexample: the metadata record's status label (source line 399)
maps the out-of-enum status 3 to `"Draft"`, not to `"Unknown"` as the claim
requires of every place a status is rendered. -/
theorem C2_status_label_counterexample :
    (extract_article_metadata statusThreeArticle "t").status = "Draft" ∧
    (extract_article_metadata statusThreeArticle "t").status ≠ "Unknown" := by
  constructor
  · rfl
  · decide

/-- C2 amended: the document-shell label (source lines 314-315) maps 1 to
`"Published"`, 2 to `"Draft"` and everything else (including absent) to
`"Unknown"`; the metadata record's label (source line 399) maps 1 to
`"Published"` and every other value — including absent and values outside the
enum — to `"Draft"`. -/
theorem C2_status_label_amended (st : Option Int) (a : ArticleDetail) (now : String) :
    create_html_document_status (some 1) = "Published" ∧
    create_html_document_status (some 2) = "Draft" ∧
    (st ≠ some 1 → st ≠ some 2 → create_html_document_status st = "Unknown") ∧
    (a.status = some 1 → (extract_article_metadata a now).status = "Published") ∧
    (a.status ≠ some 1 → (extract_article_metadata a now).status = "Draft") := by
  refine ⟨rfl, rfl, ?_, ?_, ?_⟩
  · intro h1 h2
    cases st with
    | none => rfl
    | some v =>
      have hv1 : v ≠ 1 := fun he => h1 (by rw [he])
      have hv2 : v ≠ 2 := fun he => h2 (by rw [he])
      simp [create_html_document_status, status_map, hv1, hv2]
  · intro h
    simp [extract_article_metadata, h]
  · intro h
    simp [extract_article_metadata, h]

/-- Witness for the amended C2 at status 3 (and at status 1 for the
published-label conjunct). -/
theorem C2_status_label_witness :
    create_html_document_status (some 3) = "Unknown" ∧
    (extract_article_metadata statusThreeArticle "t").status = "Draft" ∧
    (extract_article_metadata { statusThreeArticle with status := some 1 } "t").status
      = "Published" := by
  have h := C2_status_label_amended (some 3) statusThreeArticle "t"
  have h2 := C2_status_label_amended (some 3) { statusThreeArticle with status := some 1 } "t"
  exact ⟨h.2.2.1 (by decide) (by decide), h.2.2.2.2 (by decide), h2.2.2.2.1 rfl⟩

/-! ### Claim C3: absent detail in the end-to-end scenario -/

/-- C3 counterexample: in the two-stub scenario (A's detail succeeds, B's is
absent) the summary does report 2 total / 1 successful, but TWO per-article
folders are created, not one: the download loop creates the folder (source
line 481) before `download_article_content` fetches the detail (line 484), so
B's folder exists before its failure is discovered. -/
theorem C3_absent_detail_counterexample :
    runAB.1.total_articles = 2 ∧
    runAB.1.successful_articles = 1 ∧
    runAB.2.folders = ["knowledge_base/1_A", "knowledge_base/2_B"] ∧
    runAB.2.folders.length ≠ 1 := by
  refine ⟨rfl, rfl, by decide, by decide⟩

/-- C3 amended: in the scenario the RunSummary reports total_articles=2,
successful_articles=1 (and 1/1 attachments), and no file is written for B —
but a per-article folder is created for every stub before its detail fetch,
so B's (empty) folder exists alongside A's: the files written are exactly A's
four documents and A's one attachment. -/
theorem C3_absent_detail_amended :
    runAB.1.total_articles = 2 ∧
    runAB.1.successful_articles = 1 ∧
    runAB.1.total_attachments = 1 ∧
    runAB.1.successful_attachments = 1 ∧
    runAB.2.folders = ["knowledge_base/1_A", "knowledge_base/2_B"] ∧
    runAB.2.files =
      ["knowledge_base/1_A/1_article.pdf", "knowledge_base/1_A/1_article.html",
       "knowledge_base/1_A/1_article.txt", "knowledge_base/1_A/1_metadata.json",
       "knowledge_base/1_A/attachments/10_file.bin"] := by
  refine ⟨rfl, rfl, rfl, rfl, by decide, by decide⟩

/-! ### Claim C8: plain-text conversion of two paragraphs -/

/-- C8: converting `<p>A</p><p>B</p>` yields the blocks `A` and `B` separated
by exactly one blank line, with no angle brackets and no entity ampersands
left in the output. -/
theorem C8_plaintext_blocks :
    html_to_text "<p>A</p><p>B</p>" = "A\n\nB" ∧
    ((html_to_text "<p>A</p><p>B</p>").data.all
      fun c => !(c = '<') && !(c = '>') && !(c = '&')) = true := by
  constructor
  · decide
  · decide

/-! ### Claim C6: pagination termination -/

theorem mem_pagesFrom {x p : Nat} : ∀ {m : Nat}, x ∈ pagesFrom p m → p ≤ x ∧ x < p + m := by
  intro m
  induction m generalizing p with
  | zero => intro h; simp [pagesFrom] at h
  | succ n ih =>
    intro h
    rw [pagesFrom] at h
    rcases List.mem_cons.1 h with h | h
    · omega
    · have := ih h
      omega

theorem get_articles_go_spec (pages : Nat → List Nat) :
    ∀ (n fuel page : Nat) (acc : List Nat) (reqs : List Nat),
      (∀ i, page ≤ i → i < page + n → (pages i).length = 100) →
      (pages (page + n)).length < 100 →
      n + 1 ≤ fuel →
      get_articles_go (fun p => (200, pages p)) fuel page acc reqs =
        (reqs ++ pagesFrom page (n + 1), acc ++ joinPagesFrom pages page (n + 1)) := by
  intro n
  induction n with
  | zero =>
    intro fuel page acc reqs _ hshort hfuel
    match fuel, hfuel with
    | f + 1, _ =>
      have hs : (pages page).length < 100 := by simpa using hshort
      simp [get_articles_go, hs, pagesFrom, joinPagesFrom]
  | succ n ih =>
    intro fuel page acc reqs hfull hshort hfuel
    match fuel, hfuel with
    | f + 1, hf =>
      have hlen : (pages page).length = 100 := hfull page (le_refl _) (by omega)
      have hstep : get_articles_go (fun p => (200, pages p)) (f + 1) page acc reqs =
          get_articles_go (fun p => (200, pages p)) f (page + 1) (acc ++ pages page)
            (reqs ++ [page]) := by
        simp [get_articles_go, hlen]
      rw [hstep, ih f (page + 1) (acc ++ pages page) (reqs ++ [page])
        (fun i h1 h2 => hfull i (by omega) (by omega))
        (by have he : page + 1 + n = page + (n + 1) := by omega
            rw [he]; exact hshort)
        (by omega)]
      simp [pagesFrom, joinPagesFrom, List.append_assoc]

/-- C6: for a source whose pages 1..k-1 are full (100 items) and whose page k
is short, `get_articles` requests exactly pages 1..k — never page k+1 — and
returns the concatenation of the batches of pages 1..k. -/
theorem C6_pagination_terminates (pages : Nat → List Nat) (k fuel : Nat)
    (hk : 1 ≤ k) (hfuel : k ≤ fuel)
    (hfull : ∀ i, 1 ≤ i → i < k → (pages i).length = 100)
    (hshort : (pages k).length < 100) :
    get_articles (fun p => (200, pages p)) fuel = (pagesFrom 1 k, joinPagesFrom pages 1 k) ∧
    k + 1 ∉ (get_articles (fun p => (200, pages p)) fuel).1 := by
  obtain ⟨n, rfl⟩ : ∃ n, k = n + 1 := ⟨k - 1, by omega⟩
  have h := get_articles_go_spec pages n fuel 1 [] []
    (fun i h1 h2 => hfull i h1 (by omega))
    (by have he : 1 + n = n + 1 := by omega
        rw [he]; exact hshort)
    hfuel
  unfold get_articles
  constructor
  · rw [h]; simp
  · rw [h]
    simp only [List.nil_append]
    intro hmem
    have := mem_pagesFrom hmem
    omega

/-- Witness for C6: page 1 full, page 2 short (k = 2, fuel = 2). -/
theorem C6_pagination_terminates_witness :
    get_articles (fun p => (200, witnessPages p)) 2 =
      (pagesFrom 1 2, joinPagesFrom witnessPages 1 2) ∧
    2 + 1 ∉ (get_articles (fun p => (200, witnessPages p)) 2).1 :=
  C6_pagination_terminates witnessPages 2 2 (by decide) (by decide)
    (by intro i h1 h2
        have hi : i = 1 := by omega
        subst hi
        decide)
    (by decide)

/-! ### Claim C7: which formats are written -/

theorem append_ne_of_data_ne (A : String) {s t : String} (h : s.data ≠ t.data) :
    A ++ s ≠ A ++ t := by
  intro he
  apply h
  have hd := congrArg String.data he
  rw [String.data_append, String.data_append] at hd
  exact List.append_cancel_left hd

theorem html_to_text_empty : html_to_text "" = "" := rfl

/-- C7: once the detail fetch has succeeded, the `.txt` file is written
whenever `save_text` is set — even for an empty body, whose text rendering is
the empty string — whereas the `.pdf` and `.html` files are written only if
their flag is set AND the body is non-empty. -/
theorem C7_text_unconditional (env : Env) (article : ArticleStub) (folder_path : String)
    (save_pdf save_html save_text : Bool) (d : ArticleDetail) (r : ContentResult)
    (hd : env.detailOf article.id = some d)
    (hr : r = download_article_content env article folder_path save_pdf save_html save_text) :
    (save_text = true →
      (folder_path ++ "/" ++ toString article.id ++ "_article.txt") ∈ r.files ∧
      r.text_written = some (html_to_text (d.description.getD ""))) ∧
    (save_text = true → d.description.getD "" = "" → r.text_written = some "") ∧
    ((folder_path ++ "/" ++ toString article.id ++ "_article.pdf") ∈ r.files →
      save_pdf = true ∧ d.description.getD "" ≠ "") ∧
    ((folder_path ++ "/" ++ toString article.id ++ "_article.html") ∈ r.files →
      save_html = true ∧ d.description.getD "" ≠ "") := by
  have hne1 : folder_path ++ "/" ++ toString article.id ++ "_article.pdf" ≠
      folder_path ++ "/" ++ toString article.id ++ "_article.html" :=
    append_ne_of_data_ne _ (by decide)
  have hne2 : folder_path ++ "/" ++ toString article.id ++ "_article.pdf" ≠
      folder_path ++ "/" ++ toString article.id ++ "_article.txt" :=
    append_ne_of_data_ne _ (by decide)
  have hne3 : folder_path ++ "/" ++ toString article.id ++ "_article.pdf" ≠
      folder_path ++ "/" ++ toString article.id ++ "_metadata.json" :=
    append_ne_of_data_ne _ (by decide)
  have hne4 : folder_path ++ "/" ++ toString article.id ++ "_article.html" ≠
      folder_path ++ "/" ++ toString article.id ++ "_article.txt" :=
    append_ne_of_data_ne _ (by decide)
  have hne5 : folder_path ++ "/" ++ toString article.id ++ "_article.html" ≠
      folder_path ++ "/" ++ toString article.id ++ "_metadata.json" :=
    append_ne_of_data_ne _ (by decide)
  have hne6 : folder_path ++ "/" ++ toString article.id ++ "_article.html" ≠
      folder_path ++ "/" ++ toString article.id ++ "_article.pdf" :=
    append_ne_of_data_ne _ (by decide)
  subst hr
  simp only [download_article_content, hd]
  cases save_pdf <;> cases save_html <;> cases save_text <;>
    by_cases hdesc : d.description.getD "" = "" <;>
    by_cases hpdfok : env.pdfOk article.id = true <;>
    simp_all [html_to_text_empty]

/-- Witness for C7: article A of the concrete scenario, all flags on. -/
theorem C7_text_unconditional_witness :
    ("kb" ++ "/" ++ toString stubA.id ++ "_article.txt") ∈
      (download_article_content envAB stubA "kb" true true true).files ∧
    (download_article_content envAB stubA "kb" true true true).text_written =
      some (html_to_text (detailA.description.getD "")) :=
  (C7_text_unconditional envAB stubA "kb" true true true detailA
    (download_article_content envAB stubA "kb" true true true) rfl rfl).1 rfl

/-! ### Claim C10: summary counter invariants -/

theorem download_atts_le (env : Env) (fp : String) :
    ∀ atts : List Attachment, (download_atts env fp atts).2.1 ≤ (download_atts env fp atts).1 := by
  intro atts
  induction atts with
  | nil => simp [download_atts]
  | cons att rest ih =>
    rw [download_atts]
    by_cases hok : download_attachment env att = true <;> simp [hok] <;> omega

theorem process_article_succ_le (env : Env) (base : String) (da sp sh stx : Bool)
    (s : RunState) (a : ArticleStub) :
    (process_article env base da sp sh stx s a).successful_articles ≤
      s.successful_articles + 1 := by
  unfold process_article
  by_cases hraise : env.raisesFolder a.id = true
  · simp [hraise]
  · simp only [hraise]
    set r := download_article_content env a (create_article_folder a base) sp sh stx with hr
    by_cases hok : r.ok = true
    · simp only [hok, if_true, Bool.false_eq_true, if_false]
      cases da <;> cases hdet : r.detail <;> simp
    · simp [hok]

theorem process_article_att_le (env : Env) (base : String) (da sp sh stx : Bool)
    (s : RunState) (a : ArticleStub)
    (h : s.successful_attachments ≤ s.total_attachments) :
    (process_article env base da sp sh stx s a).successful_attachments ≤
      (process_article env base da sp sh stx s a).total_attachments := by
  unfold process_article
  by_cases hraise : env.raisesFolder a.id = true
  · simpa [hraise] using h
  · simp only [hraise]
    set fp := create_article_folder a base with hfp
    set r := download_article_content env a fp sp sh stx with hr
    by_cases hok : r.ok = true
    · simp only [hok, if_true, Bool.false_eq_true, if_false]
      cases da with
      | false => simpa using h
      | true =>
        cases hdet : r.detail with
        | none => simpa using h
        | some d =>
          simp only []
          have := download_atts_le env fp (d.attachments.getD [])
          simp
          omega
    · simpa [hok] using h

theorem foldl_process_succ_le (env : Env) (base : String) (da sp sh stx : Bool) :
    ∀ (l : List ArticleStub) (s : RunState),
      (l.foldl (process_article env base da sp sh stx) s).successful_articles ≤
        s.successful_articles + l.length := by
  intro l
  induction l with
  | nil => intro s; simp
  | cons a rest ih =>
    intro s
    rw [List.foldl_cons]
    have h1 := ih (process_article env base da sp sh stx s a)
    have h2 := process_article_succ_le env base da sp sh stx s a
    simp only [List.length_cons]
    omega

theorem foldl_process_att_le (env : Env) (base : String) (da sp sh stx : Bool) :
    ∀ (l : List ArticleStub) (s : RunState),
      s.successful_attachments ≤ s.total_attachments →
      (l.foldl (process_article env base da sp sh stx) s).successful_attachments ≤
        (l.foldl (process_article env base da sp sh stx) s).total_attachments := by
  intro l
  induction l with
  | nil => intro s h; simpa using h
  | cons a rest ih =>
    intro s h
    rw [List.foldl_cons]
    exact ih _ (process_article_att_le env base da sp sh stx s a h)

/-- C10: for every environment, stub list and flag combination, the returned
summary has `total_articles` equal to the input length,
`successful_articles ≤ total_articles`, and
`successful_attachments ≤ total_attachments` (all counters are naturals, so
they are nonnegative by type). -/
theorem C10_summary_invariants (env : Env) (articles : List ArticleStub) (base : String)
    (da sp sh stx : Bool) :
    (download_articles_and_attachments env articles base da sp sh stx).1.total_articles =
      articles.length ∧
    (download_articles_and_attachments env articles base da sp sh stx).1.successful_articles ≤
      (download_articles_and_attachments env articles base da sp sh stx).1.total_articles ∧
    (download_articles_and_attachments env articles base da sp sh stx).1.successful_attachments ≤
      (download_articles_and_attachments env articles base da sp sh stx).1.total_attachments := by
  unfold download_articles_and_attachments
  refine ⟨rfl, ?_, ?_⟩
  · have := foldl_process_succ_le env base da sp sh stx articles
      { successful_articles := 0, total_attachments := 0, successful_attachments := 0,
        folders := [], files := [] }
    simpa using this
  · have := foldl_process_att_le env base da sp sh stx articles
      { successful_articles := 0, total_attachments := 0, successful_attachments := 0,
        folders := [], files := [] } (by simp)
    simpa using this

/-! ### Claim C9: CSV header and blanks -/

theorem pyLeChars_total : ∀ a b : List Char, pyLeChars a b = true ∨ pyLeChars b a = true := by
  intro a
  induction a with
  | nil => intro b; left; rfl
  | cons x xs ih =>
    intro b
    cases b with
    | nil => right; rfl
    | cons y ys =>
      rw [pyLeChars, pyLeChars]
      by_cases hxy : x.toNat = y.toNat
      · have hyx : y.toNat = x.toNat := hxy.symm
        rw [if_pos hxy, if_pos hyx]
        exact ih ys
      · have hyx : ¬ y.toNat = x.toNat := fun he => hxy he.symm
        rw [if_neg hxy, if_neg hyx]
        simp only [decide_eq_true_eq]
        omega

theorem pyLeChars_trans : ∀ a b c : List Char,
    pyLeChars a b = true → pyLeChars b c = true → pyLeChars a c = true := by
  intro a
  induction a with
  | nil => intro b c _ _; rfl
  | cons x xs ih =>
    intro b c h1 h2
    cases b with
    | nil => rw [pyLeChars] at h1; exact absurd h1 (by simp)
    | cons y ys =>
      cases c with
      | nil => rw [pyLeChars] at h2; exact absurd h2 (by simp)
      | cons z zs =>
        rw [pyLeChars] at h1 h2 ⊢
        by_cases hxy : x.toNat = y.toNat
        · by_cases hyz : y.toNat = z.toNat
          · rw [if_pos hxy] at h1
            rw [if_pos hyz] at h2
            rw [if_pos (by omega : x.toNat = z.toNat)]
            exact ih ys zs h1 h2
          · rw [if_neg hyz] at h2
            simp only [decide_eq_true_eq] at h2
            rw [if_neg (by omega : ¬ x.toNat = z.toNat)]
            simp only [decide_eq_true_eq]
            omega
        · rw [if_neg hxy] at h1
          simp only [decide_eq_true_eq] at h1
          by_cases hyz : y.toNat = z.toNat
          · rw [if_neg (by omega : ¬ x.toNat = z.toNat)]
            simp only [decide_eq_true_eq]
            omega
          · rw [if_neg hyz] at h2
            simp only [decide_eq_true_eq] at h2
            rw [if_neg (by omega : ¬ x.toNat = z.toNat)]
            simp only [decide_eq_true_eq]
            omega

theorem mem_pyInsert (x y : String) : ∀ l : List String, y ∈ pyInsert x l ↔ y = x ∨ y ∈ l := by
  intro l
  induction l with
  | nil => simp [pyInsert]
  | cons z zs ih =>
    rw [pyInsert]
    by_cases h : pyLeChars x.data z.data = true
    · rw [if_pos h]
      simp [List.mem_cons]
    · rw [if_neg h]
      simp only [List.mem_cons, ih]
      tauto

theorem pairwise_pyInsert (x : String) :
    ∀ l : List String, l.Pairwise (fun a b => pyLeChars a.data b.data = true) →
      (pyInsert x l).Pairwise (fun a b => pyLeChars a.data b.data = true) := by
  intro l
  induction l with
  | nil => intro _; simp [pyInsert]
  | cons z zs ih =>
    intro hp
    rcases List.pairwise_cons.1 hp with ⟨hz, hzs⟩
    rw [pyInsert]
    by_cases h : pyLeChars x.data z.data = true
    · rw [if_pos h]
      refine List.pairwise_cons.2 ⟨?_, hp⟩
      intro b hb
      rcases List.mem_cons.1 hb with rfl | hb
      · exact h
      · exact pyLeChars_trans _ _ _ h (hz b hb)
    · rw [if_neg h]
      refine List.pairwise_cons.2 ⟨?_, ih hzs⟩
      intro b hb
      rcases (mem_pyInsert x b zs).1 hb with hbx | hb
      · rw [hbx]
        rcases pyLeChars_total x.data z.data with ht | ht
        · exact absurd ht h
        · exact ht
      · exact hz b hb

theorem pairwise_pySorted : ∀ l : List String,
    (pySorted l).Pairwise (fun a b => pyLeChars a.data b.data = true) := by
  intro l
  induction l with
  | nil => simp [pySorted]
  | cons a rest ih =>
    show (pyInsert a (pySorted rest)).Pairwise _
    exact pairwise_pyInsert a _ ih

theorem mem_pySorted (y : String) : ∀ l : List String, y ∈ pySorted l ↔ y ∈ l := by
  intro l
  induction l with
  | nil => simp [pySorted]
  | cons a rest ih =>
    show y ∈ pyInsert a (pySorted rest) ↔ _
    rw [mem_pyInsert, ih]
    simp [List.mem_cons]

theorem mem_keys_foldl (articles : List (List (String × String))) :
    ∀ (acc : List String) (f : String),
      f ∈ articles.foldl (fun acc a => acc ++ a.map Prod.fst) acc ↔
        f ∈ acc ∨ ∃ a, a ∈ articles ∧ ∃ v, (f, v) ∈ a := by
  induction articles with
  | nil => intro acc f; simp
  | cons a rest ih =>
    intro acc f
    rw [List.foldl_cons, ih]
    constructor
    · rintro (h | h)
      · rcases List.mem_append.1 h with h | h
        · exact Or.inl h
        · refine Or.inr ⟨a, List.mem_cons_self a rest, ?_⟩
          rcases List.mem_map.1 h with ⟨⟨k, v⟩, hkv, hk⟩
          cases hk
          exact ⟨v, hkv⟩
      · rcases h with ⟨b, hb, hv⟩
        exact Or.inr ⟨b, List.mem_cons_of_mem a hb, hv⟩
    · rintro (h | ⟨b, hb, v, hv⟩)
      · exact Or.inl (List.mem_append.2 (Or.inl h))
      · rcases List.mem_cons.1 hb with rfl | hb
        · exact Or.inl (List.mem_append.2 (Or.inr (List.mem_map.2 ⟨(f, v), hv, rfl⟩)))
        · exact Or.inr ⟨b, hb, v, hv⟩

theorem csv_lookup_missing (a : List (String × String)) (f : String)
    (h : ∀ v, (f, v) ∉ a) : csv_lookup a f = "" := by
  unfold csv_lookup
  have hf : a.find? (fun kv => kv.1 = f) = none := by
    rw [List.find?_eq_none]
    intro kv hkv
    simp only [decide_eq_true_eq]
    intro he
    exact h kv.2 (by cases kv; cases he; exact hkv)
  rw [hf]
  rfl

/-- C9: for every non-empty record list, the CSV export emits a header that is
ascending in the Python string order and contains exactly the union of all
records' field names, and emits one row per record whose cells are the
record's values in header order, with `""` in every column the record
lacks. -/
theorem C9_csv_header_union (articles : List (List (String × String)))
    (h : articles ≠ []) :
    ∃ hdr rows, export_to_csv articles = some (hdr, rows) ∧
      hdr.Pairwise (fun a b => pyLeChars a.data b.data = true) ∧
      (∀ f, f ∈ hdr ↔ ∃ a, a ∈ articles ∧ ∃ v, (f, v) ∈ a) ∧
      rows = articles.map (fun a => hdr.map (csv_lookup a)) ∧
      (∀ a f, a ∈ articles → (∀ v, (f, v) ∉ a) → csv_lookup a f = "") := by
  refine ⟨csv_fieldnames articles, articles.map (fun a => (csv_fieldnames articles).map (csv_lookup a)),
    ?_, ?_, ?_, rfl, ?_⟩
  · unfold export_to_csv
    rw [if_neg (by simpa using h)]
  · exact pairwise_pySorted _
  · intro f
    unfold csv_fieldnames
    rw [mem_pySorted, List.mem_dedup, mem_keys_foldl]
    simp
  · intro a f _ hmiss
    exact csv_lookup_missing a f hmiss

/-- Witness for C9 at the three heterogeneous records, together with the
concrete file content the export produces for them. -/
theorem C9_csv_header_union_witness :
    (∃ hdr rows, export_to_csv csvWitnessRecords = some (hdr, rows) ∧
      hdr.Pairwise (fun a b => pyLeChars a.data b.data = true) ∧
      (∀ f, f ∈ hdr ↔ ∃ a, a ∈ csvWitnessRecords ∧ ∃ v, (f, v) ∈ a) ∧
      rows = csvWitnessRecords.map (fun a => hdr.map (csv_lookup a)) ∧
      (∀ a f, a ∈ csvWitnessRecords → (∀ v, (f, v) ∉ a) → csv_lookup a f = "")) ∧
    export_to_csv csvWitnessRecords =
      some (["id", "tags", "title"], [["1", "", "x"], ["2", "t", "y"], ["3", "", ""]]) :=
  ⟨C9_csv_header_union csvWitnessRecords (by decide), by decide⟩
